import Mathlib

/-!
Verification development for the `ocr_screen_extractor` repository
(`src/app/ocr_utils.py` and `src/app/main_app.py`).

Python strings are embedded as lists of characters (`PyStr`), so that
`str.strip`, `sep.join` and truthiness checks are explicit executable
functions.  The OCR engine (PaddleOCR) is an external collaborator: its
`predict` output is modelled by `PredictOutcome`, with each result object
(`ResObj`) carrying exactly the shape information the parsing code in
`process_image` inspects.  The Qt application (`main_app.py`) is embedded as
explicit state transitions on an `AppState` record; filesystem existence and
pixmap-loading success are environment parameters (`Env`).
-/

/-- Embedding of a Python `str` as a list of characters. -/
abbrev PyStr := List Char

/-- Embedding of Python `str.strip()`: drop whitespace from both ends. -/
def pyStrip (s : PyStr) : PyStr :=
  (((s.dropWhile fun c => c.isWhitespace).reverse.dropWhile fun c => c.isWhitespace)).reverse

/-- A string holds at least one non-whitespace character. -/
def hasInk (s : PyStr) : Bool := s.any fun c => !c.isWhitespace

/-- Embedding of Python `sep.join(parts)`. -/
def pyJoin (sep : PyStr) : List PyStr → PyStr
  | [] => []
  | [t] => t
  | t :: u :: ts => t ++ sep ++ pyJoin sep (u :: ts)

/-- The separator joining lines inside one result object (`"\n".join`). -/
def LINE_SEP : PyStr := "\n".data

/-- The separator joining texts of distinct result objects (`"\n---\n".join`). -/
def REGION_SEP : PyStr := "\n---\n".data

/-- One entry of a `rec_texts` list: a Python string or some non-string value. -/
inductive Frag
  | str (s : PyStr)
  | nonStr
deriving DecidableEq

/-- Shape of the value at `res_obj.json['res']['rec_texts']`. -/
inductive RecTextsField
  | missing
  | texts (l : List Frag)
deriving DecidableEq

/-- Shape of the value at `res_obj.json['res']`. -/
inductive ResField
  | missing
  | fields (rt : RecTextsField)
deriving DecidableEq

/-- Shape of `res_obj.json`: absent (or not a dict), raising on access, or a dict. -/
inductive JsonAttr
  | missing
  | raisesOnAccess
  | attr (rf : ResField)
deriving DecidableEq

/-- One element of a legacy list-shaped result object: either the well-formed
`[box, (text, score)]` shape carrying a string `text`, or anything else. -/
inductive LineInfo
  | line (t : PyStr)
  | badShape
deriving DecidableEq

/-- A result object returned by the engine `predict` call, as seen by the
defensive parser: its `.json` shape and, when the object is itself a Python
list, the list of line entries. -/
structure ResObj where
  jsonPart : JsonAttr
  asList : Option (List LineInfo)
deriving DecidableEq

/-- The filter in `meaningful_texts`: keep a fragment only when it is a string
whose `strip()` is non-empty; the original (unstripped) string is kept. -/
def fragText : Frag → Option PyStr
  | .str s => if pyStrip s = [] then none else some s
  | .nonStr => none

/-- The structured-result extraction strategy: read
`res_obj.json['res']['rec_texts']`, keep meaningful fragments, and join them
with `"\n"`; yields nothing when the shape is wrong, access raises, or no
fragment survives the filter. -/
def extract_rec_texts : JsonAttr → Option PyStr
  | .attr (.fields (.texts frags)) =>
      match frags.filterMap fragText with
      | [] => none
      | m :: ms => some (pyJoin LINE_SEP (m :: ms))
  | _ => none

/-- The legacy-shape filter: a line entry yields its stripped text when the
shape is `[box, (text, score)]` and the stripped text is non-empty. -/
def lineText : LineInfo → Option PyStr
  | .line t => if pyStrip t = [] then none else some (pyStrip t)
  | .badShape => none

/-- The fallback extraction strategy: when the result object is itself a list,
collect the stripped texts of well-formed lines and join them with `"\n"`. -/
def extract_lines : Option (List LineInfo) → Option PyStr
  | none => none
  | some lines =>
      match lines.filterMap lineText with
      | [] => none
      | m :: ms => some (pyJoin LINE_SEP (m :: ms))

/-- `item_text` for one result object: the structured strategy first, the
legacy list strategy only when the first yields nothing. -/
def itemText (r : ResObj) : Option PyStr :=
  match extract_rec_texts r.jsonPart with
  | some t => some t
  | none => extract_lines r.asList

/-- Outcome of the engine `predict` call: it may raise, return a falsy value
(`None`), or return a list of result objects. -/
inductive PredictOutcome
  | raisesExc
  | noResult
  | results (rs : List ResObj)

/-- The accumulation loop of `process_image`: collect each non-absent
`item_text` and join the collected texts with `"\n---\n"`; absent when no
result object yields text. -/
def process_results (rs : List ResObj) : Option PyStr :=
  match rs.filterMap itemText with
  | [] => none
  | t :: ts => some (pyJoin REGION_SEP (t :: ts))

/-- Embedding of `OCRProcessor.process_image`.  `instOk` is the truthiness of
`self.ocr_instance`, `pathOk` the truthiness of `os.path.exists(image_path)`;
every fault branch (uninitialized engine, missing path, raising predict,
falsy or empty prediction list) returns `none`. -/
def process_image (instOk : Bool) (pathOk : Bool) (pred : PredictOutcome) : Option PyStr :=
  if instOk = false then none
  else if pathOk = false then none
  else
    match pred with
    | .raisesExc => none
    | .noResult => none
    | .results [] => none
    | .results (r :: rest) => process_results (r :: rest)

/-- A fragment that the meaningful-text filter discards: a non-string, or a
string whose `strip()` is empty. -/
def fragBlank : Frag → Bool
  | .str s => (pyStrip s).isEmpty
  | .nonStr => true

/-- A line entry that the legacy-shape filter discards. -/
def lineBlank : LineInfo → Bool
  | .line t => (pyStrip t).isEmpty
  | .badShape => true

/-- A `.json` shape that yields no usable fragment. -/
def jsonBlank : JsonAttr → Bool
  | .attr (.fields (.texts frags)) => frags.all fragBlank
  | _ => true

/-- A result object in which every fragment of both strategies is empty,
whitespace-only, malformed, or absent. -/
def resObjBlank (r : ResObj) : Bool :=
  jsonBlank r.jsonPart &&
    (match r.asList with
     | some lines => lines.all lineBlank
     | none => true)

/-- Embedding of the `OCRProcessor` object state: the configured language
(`self.current_lang`) together with the engine instance, represented by the
language it was constructed with and a generation counter that increases each
time `_initialize_ocr_instance` builds a fresh `PaddleOCR` object. -/
structure OCRProcessor where
  current_lang : String
  engineGen : Nat
  engineLang : String
deriving DecidableEq

/-- Embedding of `_initialize_ocr_instance`: build a fresh engine instance
configured with `self.current_lang`. -/
def initialize_ocr_inst (p : OCRProcessor) : OCRProcessor :=
  { p with engineGen := p.engineGen + 1, engineLang := p.current_lang }

/-- Embedding of `OCRProcessor.__init__(lang)`. -/
def mkProcessor (lang : String) : OCRProcessor :=
  initialize_ocr_inst { current_lang := lang, engineGen := 0, engineLang := lang }

/-- Embedding of `OCRProcessor.set_language`: when the code differs from the
configured language, store it and rebuild the engine; otherwise do nothing. -/
def set_language (p : OCRProcessor) (lang : String) : OCRProcessor :=
  if lang ≠ p.current_lang then
    initialize_ocr_inst { p with current_lang := lang }
  else p

/-- The `AVAILABLE_LANGUAGES` table of `main_app.py`, in insertion order. -/
def AVAILABLE_LANGUAGES : List (String × String) :=
  [("English", "en"), ("Chinese (Simplified)", "ch"), ("French", "fr"),
   ("German", "de"), ("Japanese", "japan"), ("Korean", "korean")]

/-- The `DEFAULT_LANGUAGE` display name. -/
def DEFAULT_LANGUAGE : String := "English"

/-- Embedding of `AVAILABLE_LANGUAGES.get(name)`. -/
def lookupLang (name : String) : Option String :=
  (AVAILABLE_LANGUAGES.find? fun p => p.1 = name).map Prod.snd

/-- The items added to the language combo box, in order. -/
def comboItems : List String := AVAILABLE_LANGUAGES.map Prod.fst

/-- The fixed screenshot path `DEFAULT_SCREENSHOT_PATH`. -/
def DEFAULT_SCREENSHOT_PATH : String := "temp_screenshots/latest_screenshot.png"

/-- Window geometry: position and size. -/
structure Geometry where
  x : Int
  y : Int
  w : Nat
  h : Nat
deriving DecidableEq

/-- The persisted `QSettings` store: the three keys the application uses.
`none` models an absent key. -/
structure Settings where
  geometry : Option Geometry
  language : Option String
  last_screenshot_path : Option String
deriving DecidableEq

/-- Content of the screenshot label: a plain text message or a scaled
thumbnail rendered from the image file at a path. -/
inductive LabelContent
  | text (s : String)
  | thumb (path : String)
deriving DecidableEq

/-- State of the `ScreenshotApp` window together with its settings store. -/
structure AppState where
  windowGeom : Geometry
  textArea : String
  screenshotLabel : LabelContent
  languageCombo : String
  scanEnabled : Bool
  ocr_processor : OCRProcessor
  current_screenshot_path : Option String
  workerRunning : Bool
  settings : Settings
deriving DecidableEq

/-- External environment: which paths exist on disk and which image files
load as valid (non-null) pixmaps. -/
structure Env where
  pathExists : String → Bool
  pixmapOk : String → Bool

/-- Whether a scan dispatched a background OCR worker, and on which file. -/
inductive OCRDispatch
  | noDispatch
  | dispatched (path : String)
deriving DecidableEq

/-- Possible behaviours of the capture attempt inside `take_screenshot`:
no primary screen, a grab whose save succeeds or fails, or an exception
raised inside the `try` block with message `msg`. -/
inductive CaptureEnv
  | noScreen
  | grab (saveOk : Bool)
  | raisesExc (msg : String)

/-- Embedding of `on_language_change`: look the display name up in the table;
on a truthy code, reconfigure the processor and persist the selection;
otherwise log a warning and change nothing. -/
def on_language_change (st : AppState) (lang_display_name : String) : AppState :=
  match lookupLang lang_display_name with
  | some code =>
      if code ≠ "" then
        { st with ocr_processor := set_language st.ocr_processor code,
                  settings := { st.settings with language := some lang_display_name } }
      else st
  | none => st

/-- Embedding of `QComboBox.setCurrentText` on the language combo after the
`currentTextChanged` signal is connected: a change of text fires
`on_language_change` with the new text; setting the same text fires nothing. -/
def setCurrentText (st : AppState) (name : String) : AppState :=
  if name = st.languageCombo then st
  else on_language_change { st with languageCombo := name } name

/-- A user selection of entry `i` of the language combo box. -/
def user_select_language (st : AppState) (i : Fin comboItems.length) : AppState :=
  setCurrentText st (comboItems.get i)

/-- Embedding of `display_screenshot_thumbnail`. -/
def display_screenshot_thumbnail (env : Env) (st : AppState) (image_path : String) : AppState :=
  if env.pathExists image_path = false then
    { st with screenshotLabel := .text "Screenshot file not found." }
  else if env.pixmapOk image_path = false then
    { st with screenshotLabel := .text "Failed to load screenshot." }
  else
    { st with screenshotLabel := .thumb image_path }

/-- Embedding of `take_screenshot`.  With no primary screen the method reports
and returns immediately, never moving the window.  Otherwise the window is
moved to `(-10000, -10000)`, the grab and save run inside `try`, and the
`finally` block restores the original position on every exit path; the saved
path (or `None`) is returned. -/
def take_screenshot (st : AppState) (cap : CaptureEnv) : AppState × Option String :=
  match cap with
  | .noScreen => ({ st with textArea := "Error: Could not get primary screen." }, none)
  | .grab saveOk =>
      let original_pos := (st.windowGeom.x, st.windowGeom.y)
      let moved := { st with windowGeom := { st.windowGeom with x := -10000, y := -10000 } }
      let body :=
        if saveOk then
          { moved with current_screenshot_path := some DEFAULT_SCREENSHOT_PATH }
        else
          { moved with
              textArea := "Error: Failed to save screenshot to " ++ DEFAULT_SCREENSHOT_PATH,
              current_screenshot_path := none }
      let fin :=
        { body with windowGeom :=
            { body.windowGeom with x := original_pos.1, y := original_pos.2 } }
      (fin, fin.current_screenshot_path)
  | .raisesExc msg =>
      let original_pos := (st.windowGeom.x, st.windowGeom.y)
      let moved := { st with windowGeom := { st.windowGeom with x := -10000, y := -10000 } }
      let body :=
        { moved with
            textArea := "Error taking screenshot: " ++ msg,
            current_screenshot_path := none }
      let fin :=
        { body with windowGeom :=
            { body.windowGeom with x := original_pos.1, y := original_pos.2 } }
      (fin, fin.current_screenshot_path)

/-- Embedding of `os.path.basename` for the slash-separated paths used here. -/
def basename (p : String) : String := (p.splitOn "/").getLastD p

/-- The failure tail of `scan_screen_and_process`. -/
def scan_fail (st : AppState) : AppState × OCRDispatch :=
  ({ st with textArea := "Failed to take or save screenshot. OCR aborted.",
             screenshotLabel := .text "Screenshot failed.",
             scanEnabled := true }, .noDispatch)

/-- Embedding of `scan_screen_and_process`: disable the button, announce the
capture, take the screenshot, and either dispatch the background worker on the
saved file (persisting its path) or report failure and re-enable the button. -/
def scan_screen_and_process (env : Env) (st : AppState) (cap : CaptureEnv) :
    AppState × OCRDispatch :=
  let st0 := { st with scanEnabled := false, textArea := "Taking screenshot..." }
  let res := take_screenshot st0 cap
  match res.2 with
  | some file =>
      if env.pathExists file then
        let st2 := display_screenshot_thumbnail env res.1 file
        let st3 := { st2 with textArea :=
          "Screenshot taken: " ++ basename file ++ "\nStarting OCR..." }
        if st3.workerRunning then
          ({ st3 with scanEnabled := true }, .noDispatch)
        else
          ({ st3 with
              workerRunning := true,
              settings := { st3.settings with last_screenshot_path := some file } },
           .dispatched file)
      else scan_fail res.1
  | none => scan_fail res.1

/-- The capture attempts that fail: no screen, failed save, or an exception. -/
def captureFailed : CaptureEnv → Bool
  | .grab saveOk => !saveOk
  | _ => true

/-- Embedding of `on_ocr_completed`: show the result (or error) string. -/
def on_ocr_completed (st : AppState) (text_or_error : String) : AppState :=
  { st with textArea := text_or_error }

/-- Embedding of `on_ocr_thread_finished`: re-enable the scan button and drop
the worker reference. -/
def on_ocr_thread_finished (st : AppState) : AppState :=
  { st with scanEnabled := true, workerRunning := false }

/-- The OCR-completion handling of one scan: the worker emits `ocr_finished`
(handled by `on_ocr_completed`) and then finishes (handled by
`on_ocr_thread_finished`). -/
def ocr_completion (st : AppState) (msg : String) : AppState :=
  on_ocr_thread_finished (on_ocr_completed st msg)

/-- State of a freshly constructed `ScreenshotApp` after `__init__` and
`init_ui`, given the persisted settings store `saved`: default geometry
`(100, 100, 800, 600)`, a processor for the default language code, the combo
box showing the saved language when it is still a valid table key and the
default otherwise (this happens before the change signal is connected), the
scan button enabled, and no screenshot or worker. -/
def init_state (saved : Settings) : AppState :=
  { windowGeom := { x := 100, y := 100, w := 800, h := 600 },
    textArea := "",
    screenshotLabel := .text "No screenshot taken yet.",
    languageCombo :=
      (let cur := saved.language.getD DEFAULT_LANGUAGE
       if (lookupLang cur).isSome then cur else DEFAULT_LANGUAGE),
    scanEnabled := true,
    ocr_processor := mkProcessor ((lookupLang DEFAULT_LANGUAGE).getD ""),
    current_screenshot_path := none,
    workerRunning := false,
    settings := saved }

/-- The geometry section of `load_settings`: restore the saved geometry when
the stored value is truthy. -/
def load_geometry (st : AppState) : AppState :=
  match st.settings.geometry with
  | some g => { st with windowGeom := g }
  | none => st

/-- The valid-saved-language branch of `load_settings`: show the saved name
in the combo box and, if it differs from the default, reconfigure the
processor with its code (the processor was initialized with the default). -/
def load_language_valid (st : AppState) (name code : String) : AppState :=
  if name ≠ DEFAULT_LANGUAGE then
    { setCurrentText st name with
        ocr_processor := set_language (setCurrentText st name).ocr_processor code }
  else setCurrentText st name

/-- The stale-saved-language branch of `load_settings`: fall back to the
default display name and reconfigure the processor with the default's code. -/
def load_language_fallback (st : AppState) : AppState :=
  { setCurrentText st DEFAULT_LANGUAGE with
      ocr_processor :=
        set_language (setCurrentText st DEFAULT_LANGUAGE).ocr_processor
          ((lookupLang DEFAULT_LANGUAGE).getD "") }

/-- The language section of `load_settings`: when the saved display name is a
valid table key, take the valid branch with its code; otherwise fall back. -/
def load_language (st : AppState) : AppState :=
  match lookupLang (st.settings.language.getD DEFAULT_LANGUAGE) with
  | some code => load_language_valid st (st.settings.language.getD DEFAULT_LANGUAGE) code
  | none => load_language_fallback st

/-- The last-screenshot section of `load_settings`: when a truthy path is
stored and the file exists, remember it and show its thumbnail; otherwise
show the placeholder text and clear any pixmap. -/
def load_thumb (env : Env) (st : AppState) : AppState :=
  match st.settings.last_screenshot_path with
  | some p =>
      if p ≠ "" && env.pathExists p then
        display_screenshot_thumbnail env { st with current_screenshot_path := some p } p
      else { st with screenshotLabel := .text "Take a new screenshot." }
  | none => { st with screenshotLabel := .text "Take a new screenshot." }

/-- Embedding of `load_settings`. -/
def load_settings (env : Env) (st : AppState) : AppState :=
  load_thumb env (load_language (load_geometry st))

/-- Application startup: construct the window and load the persisted
settings. -/
def startup (env : Env) (saved : Settings) : AppState :=
  load_settings env (init_state saved)

/-- Embedding of `closeEvent`: persist the geometry and the selected language
display name, and persist the current screenshot path only when it is truthy
and the file exists (otherwise the key is removed). -/
def closeEvent (env : Env) (st : AppState) : Settings :=
  { geometry := some st.windowGeom,
    language := some st.languageCombo,
    last_screenshot_path :=
      match st.current_screenshot_path with
      | some p => if p ≠ "" && env.pathExists p then some p else none
      | none => none }

/-- The language invariant: the combo box shows a valid table key whose code
is the processor's configured language, and the engine instance was built
with that same code. -/
def langInvariant (st : AppState) : Prop :=
  lookupLang st.languageCombo = some st.ocr_processor.current_lang ∧
    st.ocr_processor.engineLang = st.ocr_processor.current_lang

/-- Two result objects: one structured with two lines, one legacy list with
one line; used to exercise the region separator. -/
def rsTwo : List ResObj :=
  [{ jsonPart := .attr (.fields (.texts [Frag.str "hello".data, Frag.str "world".data])),
     asList := none },
   { jsonPart := .missing, asList := some [LineInfo.line " mars ".data] }]

/-- Result objects whose fragments are all blank, malformed or absent. -/
def rsBlank : List ResObj :=
  [{ jsonPart := .attr (.fields (.texts [Frag.str "   ".data, Frag.nonStr])),
     asList := some [LineInfo.line " \t \n".data, LineInfo.badShape] },
   { jsonPart := .missing, asList := none }]

/-- One structured result object with a single meaningful fragment. -/
def rsOne : List ResObj :=
  [{ jsonPart := .attr (.fields (.texts [Frag.str " hi there ".data])), asList := none }]

/-- An environment in which no path exists and no pixmap loads. -/
def envNone : Env := { pathExists := fun _ => false, pixmapOk := fun _ => false }

/-- An environment in which every path exists and every pixmap loads. -/
def envAll : Env := { pathExists := fun _ => true, pixmapOk := fun _ => true }

/-- An environment in which every path exists but no pixmap loads. -/
def envNoPixmap : Env := { pathExists := fun _ => true, pixmapOk := fun _ => false }

/-- An empty settings store. -/
def emptySettings : Settings :=
  { geometry := none, language := none, last_screenshot_path := none }

/-- A settings store whose saved language is no longer a valid table key. -/
def savedRu : Settings :=
  { geometry := none, language := some "Russian", last_screenshot_path := none }

/-- A freshly started application over an empty settings store. -/
def demoState : AppState := init_state emptySettings

/-- The demo application state with a current screenshot on record. -/
def demoStateShot : AppState := { demoState with current_screenshot_path := some "shot.png" }

/-- The processor as built at application startup. -/
def procEn : OCRProcessor := mkProcessor "en"

theorem lem_dropWhile_head_false (p : Char → Bool) (l : List Char) :
    l.dropWhile p = [] ∨ ∃ a t, l.dropWhile p = a :: t ∧ p a = false := by
  induction l with
  | nil => exact Or.inl rfl
  | cons a t ih =>
    rw [List.dropWhile_cons]
    by_cases h : p a = true
    · simpa [h] using ih
    · exact Or.inr ⟨a, t, by simp [h], by simpa using h⟩

theorem lem_strip_eq_nil_iff (s : PyStr) : pyStrip s = [] ↔ hasInk s = false := by
  unfold pyStrip hasInk
  constructor
  · intro h
    rw [List.reverse_eq_nil_iff, List.dropWhile_eq_nil_iff] at h
    rw [List.any_eq_false]
    intro c hc
    have hw : c.isWhitespace = true := by
      rcases List.mem_append.mp
          ((List.takeWhile_append_dropWhile (fun c : Char => c.isWhitespace) s) ▸ hc) with h1 | h1
      · exact List.mem_takeWhile_imp h1
      · exact h c (List.mem_reverse.mpr h1)
    simp [hw]
  · intro h
    rw [List.any_eq_false] at h
    have h1 : s.dropWhile (fun c => c.isWhitespace) = [] := by
      rw [List.dropWhile_eq_nil_iff]
      intro c hc
      have := h c hc
      simpa using this
    rw [h1]
    rfl

theorem lem_ink_strip (s : PyStr) (h : pyStrip s ≠ []) : hasInk (pyStrip s) = true := by
  unfold pyStrip at *
  rcases lem_dropWhile_head_false (fun c => c.isWhitespace)
      ((s.dropWhile fun c => c.isWhitespace).reverse) with h1 | ⟨a, t, h1, h2⟩
  · rw [h1] at h
    exact absurd rfl h
  · rw [h1]
    unfold hasInk
    rw [List.any_eq_true]
    exact ⟨a, List.mem_reverse.mpr (List.mem_cons_self a t), by simp [h2]⟩

theorem lem_ink_of_strip_ne (s : PyStr) (h : pyStrip s ≠ []) : hasInk s = true := by
  by_contra hc
  exact h ((lem_strip_eq_nil_iff s).mpr (Bool.eq_false_iff.mpr hc))

theorem lem_join_ink (sep : PyStr) (l : List PyStr) (m : PyStr)
    (hm : m ∈ l) (hink : hasInk m = true) : hasInk (pyJoin sep l) = true := by
  induction l with
  | nil => cases hm
  | cons t ts ih =>
    cases ts with
    | nil =>
      rcases List.mem_cons.mp hm with h | h
      · subst h; exact hink
      · cases h
    | cons u us =>
      show hasInk (t ++ sep ++ pyJoin sep (u :: us)) = true
      rcases List.mem_cons.mp hm with h | h
      · subst h
        simp only [hasInk, List.any_append, Bool.or_eq_true] at hink ⊢
        exact Or.inl (Or.inl hink)
      · have := ih h
        simp only [hasInk, List.any_append, Bool.or_eq_true] at this ⊢
        exact Or.inr this

theorem lem_fragText_str (s : PyStr) :
    fragText (.str s) = if pyStrip s = [] then none else some s := rfl

theorem lem_lineText_line (t : PyStr) :
    lineText (.line t) = if pyStrip t = [] then none else some (pyStrip t) := rfl

theorem lem_extract_rec_texts_eq (frags : List Frag) :
    extract_rec_texts (.attr (.fields (.texts frags))) =
      match frags.filterMap fragText with
      | [] => none
      | m :: ms => some (pyJoin LINE_SEP (m :: ms)) := rfl

theorem lem_extract_lines_eq (lines : List LineInfo) :
    extract_lines (some lines) =
      match lines.filterMap lineText with
      | [] => none
      | m :: ms => some (pyJoin LINE_SEP (m :: ms)) := rfl

theorem lem_fragText_ink {f : Frag} {m : PyStr} (h : fragText f = some m) :
    hasInk m = true := by
  cases f with
  | str s =>
    rw [lem_fragText_str] at h
    by_cases hs : pyStrip s = []
    · rw [if_pos hs] at h; cases h
    · rw [if_neg hs] at h
      injection h with h2
      rw [← h2]
      exact lem_ink_of_strip_ne s hs
  | nonStr => cases h

theorem lem_lineText_ink {li : LineInfo} {m : PyStr} (h : lineText li = some m) :
    hasInk m = true := by
  cases li with
  | line t =>
    rw [lem_lineText_line] at h
    by_cases ht : pyStrip t = []
    · rw [if_pos ht] at h; cases h
    · rw [if_neg ht] at h
      injection h with h2
      rw [← h2]
      exact lem_ink_strip t ht
  | badShape => cases h

theorem lem_extract_rec_texts_ink {j : JsonAttr} {t : PyStr}
    (h : extract_rec_texts j = some t) : hasInk t = true := by
  cases j with
  | missing => cases h
  | raisesOnAccess => cases h
  | attr rf =>
    cases rf with
    | missing => cases h
    | fields rt =>
      cases rt with
      | missing => cases h
      | texts frags =>
        cases heq : frags.filterMap fragText with
        | nil =>
          rw [lem_extract_rec_texts_eq, heq] at h
          cases h
        | cons m ms =>
          rw [lem_extract_rec_texts_eq, heq] at h
          cases h
          have hm : m ∈ frags.filterMap fragText := by
            rw [heq]; exact List.mem_cons_self m ms
          rcases List.mem_filterMap.mp hm with ⟨f, _, hf⟩
          exact lem_join_ink LINE_SEP (m :: ms) m (List.mem_cons_self m ms)
            (lem_fragText_ink hf)

theorem lem_extract_lines_ink {L : Option (List LineInfo)} {t : PyStr}
    (h : extract_lines L = some t) : hasInk t = true := by
  cases L with
  | none => cases h
  | some lines =>
    cases heq : lines.filterMap lineText with
    | nil =>
      rw [lem_extract_lines_eq, heq] at h
      cases h
    | cons m ms =>
      rw [lem_extract_lines_eq, heq] at h
      cases h
      have hm : m ∈ lines.filterMap lineText := by
        rw [heq]; exact List.mem_cons_self m ms
      rcases List.mem_filterMap.mp hm with ⟨li, _, hli⟩
      exact lem_join_ink LINE_SEP (m :: ms) m (List.mem_cons_self m ms)
        (lem_lineText_ink hli)

theorem lem_itemText_ink {r : ResObj} {t : PyStr} (h : itemText r = some t) :
    hasInk t = true := by
  unfold itemText at h
  cases heq : extract_rec_texts r.jsonPart with
  | some t0 =>
    rw [heq] at h
    cases h
    exact lem_extract_rec_texts_ink heq
  | none =>
    rw [heq] at h
    exact lem_extract_lines_ink h

theorem lem_process_results_ink {rs : List ResObj} {t : PyStr}
    (h : process_results rs = some t) : hasInk t = true := by
  unfold process_results at h
  cases heq : rs.filterMap itemText with
  | nil => rw [heq] at h; cases h
  | cons m ms =>
    rw [heq] at h
    cases h
    have hm : m ∈ rs.filterMap itemText := by
      rw [heq]; exact List.mem_cons_self m ms
    rcases List.mem_filterMap.mp hm with ⟨r, _, hr⟩
    exact lem_join_ink REGION_SEP (m :: ms) m (List.mem_cons_self m ms)
      (lem_itemText_ink hr)

theorem lem_blank_fragText {f : Frag} (h : fragBlank f = true) : fragText f = none := by
  cases f with
  | str s =>
    rw [lem_fragText_str, if_pos (List.isEmpty_iff.mp h)]
  | nonStr => rfl

theorem lem_blank_lineText {li : LineInfo} (h : lineBlank li = true) : lineText li = none := by
  cases li with
  | line t =>
    rw [lem_lineText_line, if_pos (List.isEmpty_iff.mp h)]
  | badShape => rfl

theorem lem_blank_extract_rec_texts {j : JsonAttr} (h : jsonBlank j = true) :
    extract_rec_texts j = none := by
  cases j with
  | missing => rfl
  | raisesOnAccess => rfl
  | attr rf =>
    cases rf with
    | missing => rfl
    | fields rt =>
      cases rt with
      | missing => rfl
      | texts frags =>
        rw [lem_extract_rec_texts_eq]
        have hnil : frags.filterMap fragText = [] := by
          rw [List.filterMap_eq_nil_iff]
          intro f hf
          exact lem_blank_fragText (List.all_eq_true.mp h f hf)
        rw [hnil]

theorem lem_blank_extract_lines {lines : List LineInfo} (h : lines.all lineBlank = true) :
    extract_lines (some lines) = none := by
  rw [lem_extract_lines_eq]
  have hnil : lines.filterMap lineText = [] := by
    rw [List.filterMap_eq_nil_iff]
    intro li hli
    exact lem_blank_lineText (List.all_eq_true.mp h li hli)
  rw [hnil]

theorem lem_blank_itemText {r : ResObj} (h : resObjBlank r = true) : itemText r = none := by
  obtain ⟨j, L⟩ := r
  unfold resObjBlank at h
  rw [Bool.and_eq_true] at h
  obtain ⟨hj, hl⟩ := h
  unfold itemText
  rw [lem_blank_extract_rec_texts hj]
  cases L with
  | none => rfl
  | some lines => exact lem_blank_extract_lines hl

theorem lem_process_results_eq (rs : List ResObj) :
    process_results rs =
      match rs.filterMap itemText with
      | [] => none
      | t :: ts => some (pyJoin REGION_SEP (t :: ts)) := rfl

/-- C1: `process_image` never propagates an exception to its caller: every
fault — uninitialized engine, nonexistent path, an exception raised by the
engine's `predict` call, or an exception raised while parsing a result
object's `.json` structure — is caught and converted into the absent-text
outcome (`none`); the embedding is a total function into `Option`, so no
other outcome exists. -/
theorem claim_C1_process_image_absorbs_faults :
    (∀ (pathOk : Bool) (pred : PredictOutcome), process_image false pathOk pred = none) ∧
    (∀ pred : PredictOutcome, process_image true false pred = none) ∧
    process_image true true PredictOutcome.raisesExc = none ∧
    (∀ L : Option (List LineInfo),
      itemText { jsonPart := .raisesOnAccess, asList := L } = extract_lines L) ∧
    itemText { jsonPart := .raisesOnAccess, asList := none } = none :=
  ⟨fun _ _ => rfl, fun _ => rfl, rfl, fun _ => rfl, rfl⟩

/-- C2: when two or more result objects each yield non-empty text, the
per-object texts are joined with the region separator `"\n---\n"`, which is
distinct from the intra-object line separator `"\n"`. -/
theorem claim_C2_region_separator (rs : List ResObj)
    (h : 2 ≤ (rs.filterMap itemText).length) :
    process_image true true (.results rs) =
      some (pyJoin REGION_SEP (rs.filterMap itemText)) ∧
    REGION_SEP ≠ LINE_SEP := by
  refine ⟨?_, by decide⟩
  cases rs with
  | nil => simp at h
  | cons r rest =>
    show process_results (r :: rest) = _
    rw [lem_process_results_eq]
    cases heq : (r :: rest).filterMap itemText with
    | nil => rw [heq] at h; simp at h
    | cons t ts => rfl

/-- C2 witness: on two concrete result objects — one structured object with
two lines, one legacy list object — the joined output uses `"\n"` inside the
first object and `"\n---\n"` between the two objects. -/
theorem claim_C2_witness :
    2 ≤ (rsTwo.filterMap itemText).length ∧
    (process_image true true (.results rsTwo) =
        some (pyJoin REGION_SEP (rsTwo.filterMap itemText)) ∧
      REGION_SEP ≠ LINE_SEP) ∧
    process_image true true (.results rsTwo) = some "hello\nworld\n---\nmars".data :=
  ⟨by decide, claim_C2_region_separator rsTwo (by decide), by decide⟩

/-- C3: both extraction strategies discard empty or whitespace-only
fragments, and whenever every result object yields only such fragments (or
none at all), `process_image` returns absent rather than an empty string. -/
theorem claim_C3_blank_yields_absent :
    (∀ s : PyStr, pyStrip s = [] →
      fragText (.str s) = none ∧ lineText (.line s) = none) ∧
    (∀ rs : List ResObj, (∀ r ∈ rs, resObjBlank r = true) →
      process_image true true (.results rs) = none) := by
  constructor
  · intro s h
    exact ⟨by rw [lem_fragText_str, if_pos h], by rw [lem_lineText_line, if_pos h]⟩
  · intro rs hall
    cases rs with
    | nil => rfl
    | cons r rest =>
      show process_results (r :: rest) = none
      rw [lem_process_results_eq]
      have hnil : (r :: rest).filterMap itemText = [] :=
        List.filterMap_eq_nil_iff.mpr fun a ha => lem_blank_itemText (hall a ha)
      rw [hnil]

/-- C3 witness: concrete whitespace-only fragments are discarded by both
strategies, and a prediction whose objects carry only blank or malformed
content yields absent. -/
theorem claim_C3_witness :
    pyStrip " \t ".data = [] ∧
    (fragText (.str " \t ".data) = none ∧ lineText (.line " \t ".data) = none) ∧
    (∀ r ∈ rsBlank, resObjBlank r = true) ∧
    process_image true true (.results rsBlank) = none :=
  ⟨by decide, claim_C3_blank_yields_absent.1 (" \t ".data) (by decide), by decide,
   claim_C3_blank_yields_absent.2 rsBlank (by decide)⟩

/-- C10: whenever `process_image` returns text rather than absent, the
returned string is non-empty and contains at least one non-whitespace
character, so truthiness distinguishes success from absence. -/
theorem claim_C10_result_never_blank (instOk pathOk : Bool) (pred : PredictOutcome)
    (s : PyStr) (h : process_image instOk pathOk pred = some s) :
    s ≠ [] ∧ pyStrip s ≠ [] ∧ hasInk s = true := by
  have hink : hasInk s = true := by
    unfold process_image at h
    cases instOk with
    | false => cases h
    | true =>
      cases pathOk with
      | false => cases h
      | true =>
        cases pred with
        | raisesExc => cases h
        | noResult => cases h
        | results rs =>
          cases rs with
          | nil => cases h
          | cons r rest => exact lem_process_results_ink h
  refine ⟨?_, ?_, hink⟩
  · intro he
    rw [he] at hink
    cases hink
  · intro he
    rw [lem_strip_eq_nil_iff] at he
    rw [he] at hink
    cases hink

/-- C10 witness: a concrete prediction with one meaningful fragment returns a
string with visible content. -/
theorem claim_C10_witness :
    process_image true true (.results rsOne) = some " hi there ".data ∧
    (" hi there ".data ≠ ([] : PyStr) ∧ pyStrip " hi there ".data ≠ [] ∧
      hasInk " hi there ".data = true) :=
  ⟨by decide,
   claim_C10_result_never_blank true true (.results rsOne) (" hi there ".data) (by decide)⟩

theorem lem_set_language_current (p : OCRProcessor) (c : String) :
    (set_language p c).current_lang = c := by
  unfold set_language
  by_cases h : c = p.current_lang
  · rw [if_neg fun hne => hne h]
    exact h.symm
  · rw [if_pos h]
    rfl

theorem lem_set_language_inv (p : OCRProcessor) (c : String)
    (h : p.engineLang = p.current_lang) :
    (set_language p c).engineLang = (set_language p c).current_lang := by
  unfold set_language
  by_cases hc : c = p.current_lang
  · rw [if_neg fun hne => hne hc]
    exact h
  · rw [if_pos hc]
    rfl

theorem lem_lookup_ne_empty {name code : String} (h : lookupLang name = some code) :
    code ≠ "" := by
  unfold lookupLang at h
  rcases Option.map_eq_some'.mp h with ⟨pair, hfind, hsnd⟩
  have hmem := List.mem_of_find?_eq_some hfind
  unfold AVAILABLE_LANGUAGES at hmem
  subst hsnd
  simp only [List.mem_cons, List.not_mem_nil, or_false] at hmem
  rcases hmem with h1 | h1 | h1 | h1 | h1 | h1 <;> rw [h1] <;> decide

theorem lem_on_language_change_eq {name code : String} (st : AppState)
    (h : lookupLang name = some code) (hne : code ≠ "") :
    on_language_change st name =
      { st with ocr_processor := set_language st.ocr_processor code,
                settings := { st.settings with language := some name } } := by
  unfold on_language_change
  rw [h]
  exact if_pos hne

theorem lem_on_language_change_current {name code : String} (st : AppState)
    (h : lookupLang name = some code) :
    (on_language_change st name).ocr_processor.current_lang = code ∧
    (on_language_change st name).languageCombo = st.languageCombo := by
  rw [lem_on_language_change_eq st h (lem_lookup_ne_empty h)]
  exact ⟨lem_set_language_current st.ocr_processor code, rfl⟩

/-- C4: `set_language` is a no-op when the code equals the configured
language, and otherwise records the new code and rebuilds the engine
instance configured with it; and after `on_language_change` on any name the
table maps to a code, reading the adapter's active language back yields that
code. -/
theorem claim_C4_set_language_semantics (p : OCRProcessor) (c : String)
    (st : AppState) (name code : String) :
    (c = p.current_lang → set_language p c = p) ∧
    (c ≠ p.current_lang →
      (set_language p c).current_lang = c ∧
      (set_language p c).engineLang = c ∧
      (set_language p c).engineGen = p.engineGen + 1) ∧
    (lookupLang name = some code →
      (on_language_change st name).ocr_processor.current_lang = code) := by
  refine ⟨?_, ?_, ?_⟩
  · intro h
    unfold set_language
    rw [if_neg fun hne => hne h]
  · intro h
    unfold set_language
    rw [if_pos h]
    exact ⟨rfl, rfl, rfl⟩
  · intro h
    exact (lem_on_language_change_current st h).1

/-- C4 witness: with the startup processor, re-selecting `en` changes
nothing, selecting `japan` rebuilds the engine for `japan`, and selecting
the display name Japanese yields the code `japan` on readback. -/
theorem claim_C4_witness :
    ("en" = procEn.current_lang ∧ set_language procEn "en" = procEn) ∧
    ("japan" ≠ procEn.current_lang ∧
      ((set_language procEn "japan").current_lang = "japan" ∧
        (set_language procEn "japan").engineLang = "japan" ∧
        (set_language procEn "japan").engineGen = procEn.engineGen + 1)) ∧
    (lookupLang "Japanese" = some "japan" ∧
      (on_language_change demoState "Japanese").ocr_processor.current_lang = "japan") :=
  ⟨⟨by decide,
    (claim_C4_set_language_semantics procEn "en" demoState "Japanese" "japan").1 (by decide)⟩,
   ⟨by decide,
    (claim_C4_set_language_semantics procEn "japan" demoState "Japanese" "japan").2.1
      (by decide)⟩,
   ⟨by decide,
    (claim_C4_set_language_semantics procEn "japan" demoState "Japanese" "japan").2.2
      (by decide)⟩⟩

/-- C5: the OCR-completion handling of a scan — the `ocr_finished` handler
followed by the worker-finished handler — shows the delivered string
(result or error alike) in the text area and unconditionally re-enables the
scan button, for every state and every delivered string. -/
theorem claim_C5_completion_updates_and_reenables (st : AppState) (msg : String) :
    (ocr_completion st msg).textArea = msg ∧
    (ocr_completion st msg).scanEnabled = true :=
  ⟨rfl, rfl⟩

/-- C6: whenever the capture attempt fails — no primary screen, a failed
save, or an exception during capture — the scan reports the failure in the
text area, marks the thumbnail label failed, re-enables the scan button
before returning, and dispatches no OCR work. -/
theorem claim_C6_capture_failure_terminal (env : Env) (st : AppState) (cap : CaptureEnv)
    (h : captureFailed cap = true) :
    (scan_screen_and_process env st cap).1.textArea =
      "Failed to take or save screenshot. OCR aborted." ∧
    (scan_screen_and_process env st cap).1.screenshotLabel = .text "Screenshot failed." ∧
    (scan_screen_and_process env st cap).1.scanEnabled = true ∧
    (scan_screen_and_process env st cap).2 = .noDispatch := by
  cases cap with
  | noScreen => exact ⟨rfl, rfl, rfl, rfl⟩
  | grab saveOk =>
    cases saveOk with
    | false => exact ⟨rfl, rfl, rfl, rfl⟩
    | true => simp [captureFailed] at h
  | raisesExc msg => exact ⟨rfl, rfl, rfl, rfl⟩

/-- C6 witness: a concrete failed capture (no primary screen) on the demo
state reports failure, re-enables the button, and dispatches nothing. -/
theorem claim_C6_witness :
    captureFailed CaptureEnv.noScreen = true ∧
    ((scan_screen_and_process envNone demoState CaptureEnv.noScreen).1.textArea =
        "Failed to take or save screenshot. OCR aborted." ∧
      (scan_screen_and_process envNone demoState CaptureEnv.noScreen).1.screenshotLabel =
        .text "Screenshot failed." ∧
      (scan_screen_and_process envNone demoState CaptureEnv.noScreen).1.scanEnabled = true ∧
      (scan_screen_and_process envNone demoState CaptureEnv.noScreen).2 = .noDispatch) :=
  ⟨by decide, claim_C6_capture_failure_terminal envNone demoState CaptureEnv.noScreen (by decide)⟩

/-- C7: on every exit path of `take_screenshot` — no screen, successful
save, failed save, or an exception during the grab or save — the window
geometry when the method returns equals the original geometry. -/
theorem claim_C7_window_always_restored (st : AppState) (cap : CaptureEnv) :
    (take_screenshot st cap).1.windowGeom = st.windowGeom := by
  cases cap with
  | noScreen => rfl
  | grab saveOk => cases saveOk <;> rfl
  | raisesExc msg => rfl

theorem lem_setCurrentText_self (st : AppState) {name : String}
    (h : name = st.languageCombo) : setCurrentText st name = st := by
  unfold setCurrentText
  rw [if_pos h]

theorem lem_setCurrentText_ne (st : AppState) {name : String}
    (h : ¬ name = st.languageCombo) :
    setCurrentText st name = on_language_change { st with languageCombo := name } name := by
  unfold setCurrentText
  rw [if_neg h]

theorem lem_load_language_eq_some {code : String} (st : AppState)
    (h : lookupLang (st.settings.language.getD DEFAULT_LANGUAGE) = some code) :
    load_language st =
      load_language_valid st (st.settings.language.getD DEFAULT_LANGUAGE) code := by
  unfold load_language
  rw [h]

theorem lem_load_language_eq_none (st : AppState)
    (h : lookupLang (st.settings.language.getD DEFAULT_LANGUAGE) = none) :
    load_language st = load_language_fallback st := by
  unfold load_language
  rw [h]

theorem lem_load_geometry_fields (st : AppState) :
    (load_geometry st).languageCombo = st.languageCombo ∧
    (load_geometry st).ocr_processor = st.ocr_processor ∧
    (load_geometry st).settings = st.settings := by
  unfold load_geometry
  cases st.settings.geometry <;> exact ⟨rfl, rfl, rfl⟩

theorem lem_display_thumb_fields (env : Env) (st : AppState) (p : String) :
    (display_screenshot_thumbnail env st p).languageCombo = st.languageCombo ∧
    (display_screenshot_thumbnail env st p).ocr_processor = st.ocr_processor ∧
    (display_screenshot_thumbnail env st p).windowGeom = st.windowGeom ∧
    (display_screenshot_thumbnail env st p).settings = st.settings ∧
    (display_screenshot_thumbnail env st p).current_screenshot_path =
      st.current_screenshot_path := by
  unfold display_screenshot_thumbnail
  split
  · exact ⟨rfl, rfl, rfl, rfl, rfl⟩
  · split
    · exact ⟨rfl, rfl, rfl, rfl, rfl⟩
    · exact ⟨rfl, rfl, rfl, rfl, rfl⟩

theorem lem_load_thumb_eq_some (env : Env) (st : AppState) {p : String}
    (h : st.settings.last_screenshot_path = some p) :
    load_thumb env st =
      if p ≠ "" && env.pathExists p then
        display_screenshot_thumbnail env { st with current_screenshot_path := some p } p
      else { st with screenshotLabel := .text "Take a new screenshot." } := by
  unfold load_thumb
  rw [h]

theorem lem_load_thumb_eq_none (env : Env) (st : AppState)
    (h : st.settings.last_screenshot_path = none) :
    load_thumb env st = { st with screenshotLabel := .text "Take a new screenshot." } := by
  unfold load_thumb
  rw [h]

theorem lem_load_thumb_fields (env : Env) (st : AppState) :
    (load_thumb env st).languageCombo = st.languageCombo ∧
    (load_thumb env st).ocr_processor = st.ocr_processor ∧
    (load_thumb env st).windowGeom = st.windowGeom := by
  cases h : st.settings.last_screenshot_path with
  | none => rw [lem_load_thumb_eq_none env st h]; exact ⟨rfl, rfl, rfl⟩
  | some p =>
    rw [lem_load_thumb_eq_some env st h]
    by_cases hc : (p ≠ "" && env.pathExists p) = true
    · rw [if_pos hc]
      exact ⟨(lem_display_thumb_fields env _ p).1,
        (lem_display_thumb_fields env _ p).2.1,
        (lem_display_thumb_fields env _ p).2.2.1⟩
    · rw [if_neg hc]
      exact ⟨rfl, rfl, rfl⟩

theorem lem_load_thumb_inv (env : Env) (st : AppState) (h : langInvariant st) :
    langInvariant (load_thumb env st) := by
  obtain ⟨f1, f2, -⟩ := lem_load_thumb_fields env st
  exact ⟨by rw [f1, f2]; exact h.1, by rw [f2]; exact h.2⟩

theorem lem_setCurrentText_inv {name code : String} (st : AppState)
    (hn : lookupLang name = some code) (hinv : langInvariant st) :
    langInvariant (setCurrentText st name) := by
  by_cases h : name = st.languageCombo
  · rw [lem_setCurrentText_self st h]
    exact hinv
  · rw [lem_setCurrentText_ne st h,
      lem_on_language_change_eq { st with languageCombo := name } hn (lem_lookup_ne_empty hn)]
    refine ⟨?_, ?_⟩
    · show lookupLang name = some (set_language st.ocr_processor code).current_lang
      rw [lem_set_language_current]
      exact hn
    · show (set_language st.ocr_processor code).engineLang =
        (set_language st.ocr_processor code).current_lang
      exact lem_set_language_inv _ _ hinv.2

theorem lem_user_select_inv (st : AppState) (i : Fin comboItems.length)
    (hinv : langInvariant st) : langInvariant (user_select_language st i) := by
  have hv : ∀ j : Fin comboItems.length, (lookupLang (comboItems.get j)).isSome := by decide
  obtain ⟨code, hc⟩ := Option.isSome_iff_exists.mp (hv i)
  exact lem_setCurrentText_inv st hc hinv

theorem lem_foldl_select_inv (ops : List (Fin comboItems.length)) (st : AppState)
    (hinv : langInvariant st) :
    langInvariant (ops.foldl user_select_language st) := by
  induction ops generalizing st with
  | nil => exact hinv
  | cons i rest ih => exact ih _ (lem_user_select_inv st i hinv)

theorem lem_init_state_ocr (saved : Settings) :
    (init_state saved).ocr_processor = mkProcessor "en" := rfl

theorem lem_load_language_inv (st : AppState)
    (hocr : st.ocr_processor = mkProcessor "en")
    (hcombo : st.languageCombo =
      if (lookupLang (st.settings.language.getD DEFAULT_LANGUAGE)).isSome
      then st.settings.language.getD DEFAULT_LANGUAGE else DEFAULT_LANGUAGE) :
    langInvariant (load_language st) := by
  cases hl : lookupLang (st.settings.language.getD DEFAULT_LANGUAGE) with
  | some code =>
    rw [lem_load_language_eq_some st hl]
    rw [hl] at hcombo
    simp at hcombo
    unfold load_language_valid
    rw [lem_setCurrentText_self st hcombo.symm]
    by_cases hd : st.settings.language.getD DEFAULT_LANGUAGE ≠ DEFAULT_LANGUAGE
    · rw [if_pos hd]
      refine ⟨?_, ?_⟩
      · show lookupLang st.languageCombo = some (set_language st.ocr_processor code).current_lang
        rw [lem_set_language_current, hcombo]
        exact hl
      · show (set_language st.ocr_processor code).engineLang =
          (set_language st.ocr_processor code).current_lang
        exact lem_set_language_inv _ _ (by rw [hocr]; rfl)
    · rw [if_neg hd]
      push_neg at hd
      refine ⟨?_, ?_⟩
      · rw [hcombo, hd, hocr]
        decide
      · rw [hocr]
        rfl
  | none =>
    rw [lem_load_language_eq_none st hl]
    rw [hl] at hcombo
    simp at hcombo
    unfold load_language_fallback
    rw [lem_setCurrentText_self st hcombo.symm]
    refine ⟨?_, ?_⟩
    · show lookupLang st.languageCombo =
        some (set_language st.ocr_processor
          ((lookupLang DEFAULT_LANGUAGE).getD "")).current_lang
      rw [lem_set_language_current, hcombo]
      decide
    · show (set_language st.ocr_processor ((lookupLang DEFAULT_LANGUAGE).getD "")).engineLang =
        (set_language st.ocr_processor ((lookupLang DEFAULT_LANGUAGE).getD "")).current_lang
      exact lem_set_language_inv _ _ (by rw [hocr]; rfl)

theorem lem_startup_inv (env : Env) (saved : Settings) :
    langInvariant (startup env saved) := by
  show langInvariant (load_thumb env (load_language (load_geometry (init_state saved))))
  apply lem_load_thumb_inv
  apply lem_load_language_inv
  · rw [(lem_load_geometry_fields (init_state saved)).2.1]
    exact lem_init_state_ocr saved
  · rw [(lem_load_geometry_fields (init_state saved)).1,
      (lem_load_geometry_fields (init_state saved)).2.2]
    rfl

/-- C8: after startup — for any persisted settings — and after any sequence
of language selections from the combo box, the processor's configured
language is exactly the code the table maps the displayed language name to,
and the engine instance was built with that code; moreover, when the saved
language is no longer a valid table key, startup falls back to the default
display name and the processor is configured with the default's code. -/
theorem claim_C8_engine_matches_selection :
    (∀ (env : Env) (saved : Settings) (ops : List (Fin comboItems.length)),
      langInvariant (ops.foldl user_select_language (startup env saved))) ∧
    (∀ (env : Env) (saved : Settings) (bad : String),
      saved.language = some bad → lookupLang bad = none →
      (startup env saved).languageCombo = DEFAULT_LANGUAGE ∧
      (startup env saved).ocr_processor.current_lang = "en" ∧
      lookupLang DEFAULT_LANGUAGE = some "en") := by
  constructor
  · intro env saved ops
    exact lem_foldl_select_inv ops _ (lem_startup_inv env saved)
  · intro env saved bad hsl hbad
    have hg := lem_load_geometry_fields (init_state saved)
    have hname : saved.language.getD DEFAULT_LANGUAGE = bad := by rw [hsl]; rfl
    have hsl2 : (load_geometry (init_state saved)).settings.language = some bad := by
      rw [hg.2.2]; exact hsl
    have hl : lookupLang
        ((load_geometry (init_state saved)).settings.language.getD DEFAULT_LANGUAGE) = none := by
      rw [hsl2]; exact hbad
    have hcombo : (load_geometry (init_state saved)).languageCombo = DEFAULT_LANGUAGE := by
      rw [hg.1]
      show (if (lookupLang (saved.language.getD DEFAULT_LANGUAGE)).isSome
            then saved.language.getD DEFAULT_LANGUAGE else DEFAULT_LANGUAGE) = DEFAULT_LANGUAGE
      rw [hname, hbad]
      rfl
    have hstart : startup env saved =
        load_thumb env (load_language_fallback (load_geometry (init_state saved))) := by
      show load_thumb env (load_language (load_geometry (init_state saved))) = _
      rw [lem_load_language_eq_none _ hl]
    have hsc : setCurrentText (load_geometry (init_state saved)) DEFAULT_LANGUAGE =
        load_geometry (init_state saved) := lem_setCurrentText_self _ hcombo.symm
    refine ⟨?_, ?_, by decide⟩
    · rw [hstart,
        (lem_load_thumb_fields env (load_language_fallback (load_geometry (init_state saved)))).1]
      unfold load_language_fallback
      rw [hsc]
      exact hcombo
    · rw [hstart,
        (lem_load_thumb_fields env
          (load_language_fallback (load_geometry (init_state saved)))).2.1]
      unfold load_language_fallback
      rw [hsc]
      show (set_language (load_geometry (init_state saved)).ocr_processor
        ((lookupLang DEFAULT_LANGUAGE).getD "")).current_lang = "en"
      rw [lem_set_language_current]
      decide

/-- C8 witness: with a stale saved language the startup over an empty
filesystem falls back to English with code `en`, and the invariant holds
after startup followed by selecting the Japanese combo entry. -/
theorem claim_C8_witness :
    savedRu.language = some "Russian" ∧
    lookupLang "Russian" = none ∧
    ((startup envNone savedRu).languageCombo = DEFAULT_LANGUAGE ∧
      (startup envNone savedRu).ocr_processor.current_lang = "en" ∧
      lookupLang DEFAULT_LANGUAGE = some "en") ∧
    langInvariant
      (([⟨4, by decide⟩] : List (Fin comboItems.length)).foldl
        user_select_language (startup envNone savedRu)) :=
  ⟨rfl, by decide,
   claim_C8_engine_matches_selection.2 envNone savedRu "Russian" rfl (by decide),
   claim_C8_engine_matches_selection.1 envNone savedRu [⟨4, by decide⟩]⟩

theorem lem_on_language_change_eq_none {name : String} (st : AppState)
    (h : lookupLang name = none) : on_language_change st name = st := by
  unfold on_language_change
  rw [h]

theorem lem_on_language_change_fields (st : AppState) (name : String) :
    (on_language_change st name).windowGeom = st.windowGeom ∧
    (on_language_change st name).settings.geometry = st.settings.geometry ∧
    (on_language_change st name).settings.last_screenshot_path =
      st.settings.last_screenshot_path ∧
    (on_language_change st name).current_screenshot_path = st.current_screenshot_path := by
  cases h : lookupLang name with
  | none =>
    rw [lem_on_language_change_eq_none st h]
    exact ⟨rfl, rfl, rfl, rfl⟩
  | some code =>
    rw [lem_on_language_change_eq st h (lem_lookup_ne_empty h)]
    exact ⟨rfl, rfl, rfl, rfl⟩

theorem lem_setCurrentText_fields (st : AppState) (name : String) :
    (setCurrentText st name).windowGeom = st.windowGeom ∧
    (setCurrentText st name).settings.geometry = st.settings.geometry ∧
    (setCurrentText st name).settings.last_screenshot_path =
      st.settings.last_screenshot_path ∧
    (setCurrentText st name).current_screenshot_path = st.current_screenshot_path := by
  by_cases h : name = st.languageCombo
  · rw [lem_setCurrentText_self st h]
    exact ⟨rfl, rfl, rfl, rfl⟩
  · rw [lem_setCurrentText_ne st h]
    have hf := lem_on_language_change_fields { st with languageCombo := name } name
    exact ⟨hf.1, hf.2.1, hf.2.2.1, hf.2.2.2⟩

theorem lem_load_language_fields (st : AppState) :
    (load_language st).windowGeom = st.windowGeom ∧
    (load_language st).settings.geometry = st.settings.geometry ∧
    (load_language st).settings.last_screenshot_path = st.settings.last_screenshot_path ∧
    (load_language st).current_screenshot_path = st.current_screenshot_path := by
  cases hl : lookupLang (st.settings.language.getD DEFAULT_LANGUAGE) with
  | some code =>
    rw [lem_load_language_eq_some st hl]
    unfold load_language_valid
    have hf := lem_setCurrentText_fields st (st.settings.language.getD DEFAULT_LANGUAGE)
    by_cases hd : st.settings.language.getD DEFAULT_LANGUAGE ≠ DEFAULT_LANGUAGE
    · rw [if_pos hd]
      exact ⟨hf.1, hf.2.1, hf.2.2.1, hf.2.2.2⟩
    · rw [if_neg hd]
      exact hf
  | none =>
    rw [lem_load_language_eq_none st hl]
    unfold load_language_fallback
    have hf := lem_setCurrentText_fields st DEFAULT_LANGUAGE
    exact ⟨hf.1, hf.2.1, hf.2.2.1, hf.2.2.2⟩

theorem lem_load_language_combo_valid {code : String} (st : AppState)
    (hl : lookupLang (st.settings.language.getD DEFAULT_LANGUAGE) = some code)
    (hcombo : st.settings.language.getD DEFAULT_LANGUAGE = st.languageCombo) :
    (load_language st).languageCombo = st.languageCombo := by
  rw [lem_load_language_eq_some st hl]
  unfold load_language_valid
  rw [hcombo, lem_setCurrentText_self st rfl]
  by_cases hd : st.languageCombo ≠ DEFAULT_LANGUAGE
  · rw [if_pos hd]
  · rw [if_neg hd]

theorem lem_load_geometry_eq_some {g : Geometry} (st : AppState)
    (h : st.settings.geometry = some g) :
    load_geometry st = { st with windowGeom := g } := by
  unfold load_geometry
  rw [h]

theorem lem_display_thumb_ok (env : Env) (st : AppState) (p : String)
    (h1 : env.pathExists p = true) (h2 : env.pixmapOk p = true) :
    display_screenshot_thumbnail env st p = { st with screenshotLabel := .thumb p } := by
  simp [display_screenshot_thumbnail, h1, h2]

/-- C9 (amended): saving settings at shutdown and loading them in a fresh
instance reproduces the window geometry and, for any valid selected
language, the selected language; the thumbnail is restored from the
persisted screenshot path provided the file still exists at load time and
loads as a valid image; when no path was persisted or the file no longer
exists, loading shows the no-screenshot placeholder instead of crashing. -/
theorem claim_C9_roundtrip (stC : AppState) (envC envL : Env) (code : String)
    (hlang : lookupLang stC.languageCombo = some code) :
    (startup envL (closeEvent envC stC)).windowGeom = stC.windowGeom ∧
    (startup envL (closeEvent envC stC)).languageCombo = stC.languageCombo ∧
    (∀ p : String, stC.current_screenshot_path = some p → p ≠ "" →
      envC.pathExists p = true → envL.pathExists p = true → envL.pixmapOk p = true →
      (startup envL (closeEvent envC stC)).screenshotLabel = .thumb p ∧
      (startup envL (closeEvent envC stC)).current_screenshot_path = some p) ∧
    (∀ p : String, (closeEvent envC stC).last_screenshot_path = some p →
      envL.pathExists p = false →
      (startup envL (closeEvent envC stC)).screenshotLabel =
        LabelContent.text "Take a new screenshot.") ∧
    ((closeEvent envC stC).last_screenshot_path = none →
      (startup envL (closeEvent envC stC)).screenshotLabel =
        LabelContent.text "Take a new screenshot.") := by
  have hstg : load_geometry (init_state (closeEvent envC stC)) =
      { init_state (closeEvent envC stC) with windowGeom := stC.windowGeom } :=
    lem_load_geometry_eq_some (init_state (closeEvent envC stC)) rfl
  have hlangfields :=
    lem_load_language_fields (load_geometry (init_state (closeEvent envC stC)))
  have hthumbfields :=
    lem_load_thumb_fields envL
      (load_language (load_geometry (init_state (closeEvent envC stC))))
  have hsettings :
      (load_geometry (init_state (closeEvent envC stC))).settings =
        (init_state (closeEvent envC stC)).settings :=
    (lem_load_geometry_fields (init_state (closeEvent envC stC))).2.2
  have hW : (startup envL (closeEvent envC stC)).windowGeom = stC.windowGeom := by
    show (load_thumb envL
      (load_language (load_geometry (init_state (closeEvent envC stC))))).windowGeom = _
    rw [hthumbfields.2.2, hlangfields.1, hstg]
  have hstgcombo :
      (load_geometry (init_state (closeEvent envC stC))).languageCombo =
        stC.languageCombo := by
    rw [hstg]
    show (if (lookupLang stC.languageCombo).isSome
          then stC.languageCombo else DEFAULT_LANGUAGE) = stC.languageCombo
    rw [hlang]
    rfl
  have hL : (startup envL (closeEvent envC stC)).languageCombo = stC.languageCombo := by
    show (load_thumb envL
      (load_language (load_geometry (init_state (closeEvent envC stC))))).languageCombo = _
    rw [hthumbfields.1]
    have hl2 : lookupLang
        ((load_geometry (init_state (closeEvent envC stC))).settings.language.getD
          DEFAULT_LANGUAGE) = some code := by
      rw [hsettings]
      exact hlang
    have hc2 : (load_geometry (init_state (closeEvent envC stC))).settings.language.getD
        DEFAULT_LANGUAGE = (load_geometry (init_state (closeEvent envC stC))).languageCombo := by
      rw [hsettings, hstgcombo]
      rfl
    rw [lem_load_language_combo_valid _ hl2 hc2]
    exact hstgcombo
  have hst2last :
      (load_language (load_geometry (init_state (closeEvent envC stC)))).settings.last_screenshot_path =
        (closeEvent envC stC).last_screenshot_path := by
    rw [hlangfields.2.2.1, hsettings]
    rfl
  refine ⟨hW, hL, ?_, ?_, ?_⟩
  · intro p hp hne hexC hexL hpix
    have hcondC : (p ≠ "" && envC.pathExists p) = true := by
      rw [hexC]
      simp [hne]
    have hsavedp : (closeEvent envC stC).last_screenshot_path = some p := by
      show (match stC.current_screenshot_path with
            | some q => if q ≠ "" && envC.pathExists q then some q else none
            | none => none) = some p
      rw [hp]
      show (if p ≠ "" && envC.pathExists p then some p else none) = some p
      rw [if_pos hcondC]
    have hlast2 :
        (load_language (load_geometry (init_state (closeEvent envC stC)))).settings.last_screenshot_path =
          some p := by
      rw [hst2last]
      exact hsavedp
    have hcondL : (p ≠ "" && envL.pathExists p) = true := by
      rw [hexL]
      simp [hne]
    constructor
    · show (load_thumb envL
        (load_language (load_geometry (init_state (closeEvent envC stC))))).screenshotLabel = _
      rw [lem_load_thumb_eq_some envL _ hlast2, if_pos hcondL,
        lem_display_thumb_ok envL _ p hexL hpix]
    · show (load_thumb envL
        (load_language (load_geometry
          (init_state (closeEvent envC stC))))).current_screenshot_path = _
      rw [lem_load_thumb_eq_some envL _ hlast2, if_pos hcondL,
        lem_display_thumb_ok envL _ p hexL hpix]
  · intro p hsavedp hexL
    have hlast2 :
        (load_language (load_geometry (init_state (closeEvent envC stC)))).settings.last_screenshot_path =
          some p := by
      rw [hst2last]
      exact hsavedp
    show (load_thumb envL
      (load_language (load_geometry (init_state (closeEvent envC stC))))).screenshotLabel = _
    rw [lem_load_thumb_eq_some envL _ hlast2]
    simp [hexL]
  · intro hnone
    have hlast2 :
        (load_language (load_geometry (init_state (closeEvent envC stC)))).settings.last_screenshot_path =
          none := by
      rw [hst2last]
      exact hnone
    show (load_thumb envL
      (load_language (load_geometry (init_state (closeEvent envC stC))))).screenshotLabel = _
    rw [lem_load_thumb_eq_none envL _ hlast2]

/-- C9 witness: for a concrete closing state with a recorded screenshot, the
round trip through `closeEvent` and `startup` over a filesystem where the
file exists and loads reproduces geometry, language, and thumbnail. -/
theorem claim_C9_witness :
    lookupLang demoStateShot.languageCombo = some "en" ∧
    demoStateShot.current_screenshot_path = some "shot.png" ∧
    envAll.pathExists "shot.png" = true ∧
    envAll.pixmapOk "shot.png" = true ∧
    (startup envAll (closeEvent envAll demoStateShot)).windowGeom =
      demoStateShot.windowGeom ∧
    (startup envAll (closeEvent envAll demoStateShot)).languageCombo =
      demoStateShot.languageCombo ∧
    (startup envAll (closeEvent envAll demoStateShot)).screenshotLabel =
      LabelContent.thumb "shot.png" :=
  ⟨by decide, rfl, rfl, rfl,
   (claim_C9_roundtrip demoStateShot envAll envAll "en" (by decide)).1,
   (claim_C9_roundtrip demoStateShot envAll envAll "en" (by decide)).2.1,
   ((claim_C9_roundtrip demoStateShot envAll envAll "en" (by decide)).2.2.1 "shot.png"
     rfl (by decide) rfl rfl rfl).1⟩

/-- C9 counterexample to the claim as stated: the screenshot file persisted
at shutdown still exists at the next startup, yet no thumbnail is restored —
the file exists but does not load as a valid pixmap, and the label shows the
load-failure message instead. -/
theorem claim_C9_counterexample :
    (closeEvent envAll demoStateShot).last_screenshot_path = some "shot.png" ∧
    envNoPixmap.pathExists "shot.png" = true ∧
    (startup envNoPixmap (closeEvent envAll demoStateShot)).screenshotLabel ≠
      LabelContent.thumb "shot.png" ∧
    (startup envNoPixmap (closeEvent envAll demoStateShot)).screenshotLabel =
      LabelContent.text "Failed to load screenshot." := by
  refine ⟨by decide, rfl, by decide, by decide⟩
